import Mathlib

/-!
Verification development for the lpop credential-store abstraction.

The Rust sources embedded here:
- packages/keychain-native/src/error.rs          (error taxonomy)
- packages/keychain-native/src/platform/fallback.rs (in-memory fallback backend)
- packages/keychain-native/src/platform/macos.rs (native macOS backend)
- packages/keychain-native/src/platform/linux.rs (unsupported-platform stub)
- src/git_resolver.rs                            (service-name helpers)
- src/keychain.rs                                (CLI-side KeychainManager)

Stateful backends are embedded by explicit state passing: the fallback
store HashMap becomes an association list from (service, account) keys to
values, and the macOS Security-framework generic-password store becomes an
association list from (service, account) to stored item (password plus
label).  Native calls (SecItemCopyMatching, SecItemAdd,
delete_generic_password) are modelled as functions on that store state; the
status-handling logic that follows each native call in the Rust code is
embedded verbatim as pure functions of the returned status and data.
-/

/-- Embedding of KeychainError from error.rs. -/
inductive KeychainError where
  | NotFound (account : String)
  | AccessDenied
  | InvalidData (msg : String)
  | InvalidParameter (msg : String)
  | PlatformError (msg : String)
  | Unsupported (msg : String)
  | UnsupportedPlatform
deriving DecidableEq, Repr

/-- Embedding of the KeychainEntry record used by the platform backends
(service, account, password strings). -/
structure KeychainEntry where
  service : String
  account : String
  password : String
deriving DecidableEq, Repr

/-- Embedding of KeychainOptions from lib.rs. -/
structure KeychainOptions where
  team_id : Option String
  access_group : Option String
  synchronizable : Option Bool
deriving DecidableEq, Repr

/-- Association-list model of a map keyed by (service, account) pairs.
The fallback backend uses String values; the macOS OS store uses items
carrying a password and a label. -/
abbrev Store (α : Type) : Type := List ((String × String) × α)

/-- Lookup in the association-list map model. -/
def lookupKey {α : Type} : Store α → String × String → Option α
  | [], _ => none
  | (k', v) :: t, k => if k' = k then some v else lookupKey t k

/-- Removal of a key from the map model (HashMap remove). -/
def eraseKey {α : Type} : Store α → String × String → Store α
  | [], _ => []
  | (k', v) :: t, k => if k' = k then eraseKey t k else (k', v) :: eraseKey t k

/-- Insertion overwriting any previous binding (HashMap insert). -/
def insertKey {α : Type} (l : Store α) (k : String × String) (v : α) : Store α :=
  (k, v) :: eraseKey l k

/-- State of the fallback backend: the Mutex-guarded
HashMap from (service, account) to password in fallback.rs. -/
abbrev FallbackStorage : Type := Store String

/-- Embedding of FallbackKeychain::set_password (fallback.rs lines 22-26):
inserts the password under (service, account), overwriting, and returns Ok. -/
def FallbackKeychain.set_password (st : FallbackStorage) (service account password : String) :
    Except KeychainError Unit × FallbackStorage :=
  (.ok (), insertKey st (service, account) password)

/-- Embedding of FallbackKeychain::get_password (fallback.rs lines 28-31):
a plain lookup, cloned into Ok; absence yields Ok(None). -/
def FallbackKeychain.get_password (st : FallbackStorage) (service account : String) :
    Except KeychainError (Option String) :=
  .ok (lookupKey st (service, account))

/-- Embedding of FallbackKeychain::delete_password (fallback.rs lines 33-36):
storage.remove(key).is_some(), so Ok(true) exactly when the key was present. -/
def FallbackKeychain.delete_password (st : FallbackStorage) (service account : String) :
    Except KeychainError Bool × FallbackStorage :=
  (.ok (lookupKey st (service, account)).isSome, eraseKey st (service, account))

/-- Embedding of FallbackKeychain::find_credentials (fallback.rs lines 38-50):
filters the stored entries by service equality and rebuilds KeychainEntry values. -/
def FallbackKeychain.find_credentials (st : FallbackStorage) (service : String) :
    Except KeychainError (List KeychainEntry) :=
  .ok ((st.filter (fun e => decide (e.1.1 = service))).map
    (fun e => { service := e.1.1, account := e.1.2, password := e.2 }))

/-- Embedding of FallbackKeychain::find_by_account (fallback.rs lines 52-64):
filters the stored entries by account EQUALITY (a == account, not a prefix test)
and rebuilds KeychainEntry values. -/
def FallbackKeychain.find_by_account (st : FallbackStorage) (account : String) :
    Except KeychainError (List KeychainEntry) :=
  .ok ((st.filter (fun e => decide (e.1.2 = account))).map
    (fun e => { service := e.1.1, account := e.1.2, password := e.2 }))

/-- Spec-side reading of the account search for claim C4: the entries whose
account STARTS WITH the given string, case-sensitively.  This follows the
words of the spec, to be compared with FallbackKeychain.find_by_account. -/
def findByAccountStartsWithSpec (st : FallbackStorage) (accountStart : String) :
    List KeychainEntry :=
  (st.filter (fun e => accountStart.data <+: e.1.2.data)).map
    (fun e => { service := e.1.1, account := e.1.2, password := e.2 })

/-- Iterated set_password calls on one (service, account) key, used to state
the last-write-wins property of the fallback backend. -/
def applySets (st : FallbackStorage) (service account : String) (ps : List String) :
    FallbackStorage :=
  ps.foldl (fun acc p => (FallbackKeychain.set_password acc service account p).2) st

/-- The Security-framework status for an absent item (errSecItemNotFound). -/
def errSecItemNotFound : Int := -25300

/-- The Security-framework status for adding an already present item
(errSecDuplicateItem). -/
def errSecDuplicateItem : Int := -25299

/-- The Unicode replacement character U+FFFD. -/
def replacementChar : Char := Char.ofNat 0xFFFD

/-- Whether a byte is a UTF-8 continuation byte (0x80..0xBF). -/
def isContByte (b : Nat) : Bool := 0x80 ≤ b && b ≤ 0xBF

/-- Valid range check for the second byte of a three-byte UTF-8 sequence,
which depends on the lead byte (E0 tightens the lower bound, ED the upper). -/
def validThreeByteSecond (b0 b1 : Nat) : Bool :=
  (if b0 = 0xE0 then 0xA0 else 0x80) ≤ b1 && b1 ≤ (if b0 = 0xED then 0x9F else 0xBF)

/-- Valid range check for the second byte of a four-byte UTF-8 sequence,
which depends on the lead byte (F0 tightens the lower bound, F4 the upper). -/
def validFourByteSecond (b0 b1 : Nat) : Bool :=
  (if b0 = 0xF0 then 0x90 else 0x80) ≤ b1 && b1 ≤ (if b0 = 0xF4 then 0x8F else 0xBF)

/-- UTF-8 decoding with lossy replacement of invalid sequences, the model of
Rust String::from_utf8_lossy: each maximal invalid subpart becomes one
U+FFFD replacement character. -/
def utf8LossyChars : List Nat → List Char
  | [] => []
  | b :: rest =>
    if b < 0x80 then Char.ofNat b :: utf8LossyChars rest
    else if 0xC2 ≤ b && b ≤ 0xDF then
      match rest with
      | [] => [replacementChar]
      | b1 :: rest1 =>
        if isContByte b1 then
          Char.ofNat ((b - 0xC0) * 0x40 + (b1 - 0x80)) :: utf8LossyChars rest1
        else replacementChar :: utf8LossyChars (b1 :: rest1)
    else if 0xE0 ≤ b && b ≤ 0xEF then
      match rest with
      | [] => [replacementChar]
      | b1 :: rest1 =>
        if validThreeByteSecond b b1 then
          match rest1 with
          | [] => [replacementChar]
          | b2 :: rest2 =>
            if isContByte b2 then
              Char.ofNat ((b - 0xE0) * 0x1000 + (b1 - 0x80) * 0x40 + (b2 - 0x80)) ::
                utf8LossyChars rest2
            else replacementChar :: utf8LossyChars (b2 :: rest2)
        else replacementChar :: utf8LossyChars (b1 :: rest1)
    else if 0xF0 ≤ b && b ≤ 0xF4 then
      match rest with
      | [] => [replacementChar]
      | b1 :: rest1 =>
        if validFourByteSecond b b1 then
          match rest1 with
          | [] => [replacementChar]
          | b2 :: rest2 =>
            if isContByte b2 then
              match rest2 with
              | [] => [replacementChar]
              | b3 :: rest3 =>
                if isContByte b3 then
                  Char.ofNat ((b - 0xF0) * 0x40000 + (b1 - 0x80) * 0x1000 +
                    (b2 - 0x80) * 0x40 + (b3 - 0x80)) :: utf8LossyChars rest3
                else replacementChar :: utf8LossyChars (b3 :: rest3)
            else replacementChar :: utf8LossyChars (b2 :: rest2)
        else replacementChar :: utf8LossyChars (b1 :: rest1)
    else replacementChar :: utf8LossyChars rest

/-- Rust String::from_utf8_lossy, as a String. -/
def fromUtf8Lossy (bytes : List Nat) : String := String.mk (utf8LossyChars bytes)

/-- UTF-8 encoding of one character (used by the OS-store model to hand the
stored password back as raw data bytes). -/
def utf8EncodeChar (c : Char) : List Nat :=
  let n := c.toNat
  if n < 0x80 then [n]
  else if n < 0x800 then [0xC0 + n / 0x40, 0x80 + n % 0x40]
  else if n < 0x10000 then
    [0xE0 + n / 0x1000, 0x80 + (n / 0x40) % 0x40, 0x80 + n % 0x40]
  else
    [0xF0 + n / 0x40000, 0x80 + (n / 0x1000) % 0x40, 0x80 + (n / 0x40) % 0x40,
      0x80 + n % 0x40]

/-- UTF-8 encoding of a string as a byte list. -/
def strBytes (s : String) : List Nat := s.data.flatMap utf8EncodeChar

/-- An item in the modelled macOS generic-password keychain: the secret data
plus the display label set by set_password. -/
structure MacItem where
  password : String
  label : String
deriving DecidableEq, Repr

/-- State of the OS-managed generic-password store, keyed by
(service, account).  The macOS backend itself is stateless; all entry state
lives here. -/
abbrev OsState : Type := Store MacItem

/-- Model of SecItemCopyMatching for a (service, account) query with
return-data and limit-one: status 0 with the UTF-8 bytes of the stored
password when present, errSecItemNotFound with no data when absent. -/
def SecKeychain.copy_matching (os : OsState) (service account : String) :
    Int × Option (List Nat) :=
  match lookupKey os (service, account) with
  | some item => (0, some (strBytes item.password))
  | none => (errSecItemNotFound, none)

/-- Model of security_framework delete_generic_password: removes the item
when present, reports errSecItemNotFound when absent. -/
def SecKeychain.delete_generic_password (os : OsState) (service account : String) :
    Except Int Unit × OsState :=
  match lookupKey os (service, account) with
  | some _ => (.ok (), eraseKey os (service, account))
  | none => (.error errSecItemNotFound, os)

/-- Model of SecItemAdd for a generic-password item: fails with
errSecDuplicateItem when the key is already present, otherwise stores the
item under the key with status 0. -/
def SecKeychain.item_add (os : OsState) (service account : String) (item : MacItem) :
    Int × OsState :=
  match lookupKey os (service, account) with
  | some _ => (errSecDuplicateItem, os)
  | none => (0, insertKey os (service, account) item)

/-- Embedding of the status handling in MacOSKeychain::get_password
(macos.rs lines 139-152): errSecItemNotFound maps to Ok(None); status 0
with non-null data maps to the lossily UTF-8-decoded password; everything
else maps to a PlatformError embedding the raw OSStatus. -/
def MacOSKeychain.get_password_result (status : Int) (data : Option (List Nat)) :
    Except KeychainError (Option String) :=
  if status = errSecItemNotFound then .ok none
  else
    match data with
    | some d =>
      if status = 0 then .ok (some (fromUtf8Lossy d))
      else .error (.PlatformError ("Failed to get keychain item: OSStatus " ++ toString status))
    | none =>
      .error (.PlatformError ("Failed to get keychain item: OSStatus " ++ toString status))

/-- Embedding of MacOSKeychain::get_password (macos.rs lines 120-153) over
the OS-store model: build the query, run the copy-matching call, and map
its status as in the source. -/
def MacOSKeychain.get_password (os : OsState) (service account : String) :
    Except KeychainError (Option String) :=
  let r := SecKeychain.copy_matching os service account
  MacOSKeychain.get_password_result r.1 r.2

/-- Embedding of the status handling in MacOSKeychain::delete_password
(macos.rs lines 155-164): Ok maps to true, errSecItemNotFound to false, any
other failure to a PlatformError embedding the failure code. -/
def MacOSKeychain.delete_password_result (r : Except Int Unit) :
    Except KeychainError Bool :=
  match r with
  | .ok _ => .ok true
  | .error e =>
    if e = errSecItemNotFound then .ok false
    else .error (.PlatformError ("Failed to delete keychain item: OSStatus " ++ toString e))

/-- Embedding of MacOSKeychain::delete_password over the OS-store model. -/
def MacOSKeychain.delete_password (os : OsState) (service account : String) :
    Except KeychainError Bool × OsState :=
  let (r, osNext) := SecKeychain.delete_generic_password os service account
  (MacOSKeychain.delete_password_result r, osNext)

/-- Embedding of MacOSKeychain::set_password (macos.rs lines 89-118): first
call delete_password on the key and discard its outcome, then SecItemAdd a
new item carrying the password and the display label
service ++ " (" ++ account ++ ")"; a non-zero add status becomes a
PlatformError embedding the status. -/
def MacOSKeychain.set_password (os : OsState) (service account password : String) :
    Except KeychainError Unit × OsState :=
  let step1 := MacOSKeychain.delete_password os service account
  let label := service ++ " (" ++ account ++ ")"
  let (status, osNext) := SecKeychain.item_add step1.2 service account
    { password := password, label := label }
  (if status = 0 then .ok ()
   else .error (.PlatformError ("Failed to add keychain item: OSStatus " ++ toString status)),
   osNext)

/-- One record produced by an ItemSearchOptions search: either an attribute
dictionary with optional acct, svce and v_Data fields (a field is None when
the record lacks it), or some other result shape. -/
inductive SearchResult where
  | dict (acct : Option String) (svce : Option String) (vData : Option (List Nat))
  | other
deriving DecidableEq, Repr

/-- Embedding of MacOSKeychain::find_credentials (macos.rs lines 166-198)
as a function of the raw search outcome: on success, keep exactly the Dict
records carrying both an acct and a v_Data field; an errSecItemNotFound
search failure yields an empty list; other failures become PlatformError. -/
def MacOSKeychain.find_credentials_result (service : String)
    (r : Except Int (List SearchResult)) : Except KeychainError (List KeychainEntry) :=
  match r with
  | .ok items =>
    .ok (items.filterMap (fun item =>
      match item with
      | .dict (some account) _ (some passwordData) =>
        some { service := service, account := account,
               password := fromUtf8Lossy passwordData }
      | _ => none))
  | .error e =>
    if e = errSecItemNotFound then .ok []
    else .error (.PlatformError ("Failed to search keychain: OSStatus " ++ toString e))

/-- Embedding of MacOSKeychain::find_by_account (macos.rs lines 200-232)
as a function of the raw search outcome: on success, keep exactly the Dict
records carrying both a svce and a v_Data field; an errSecItemNotFound
search failure yields an empty list; other failures become PlatformError. -/
def MacOSKeychain.find_by_account_result (account : String)
    (r : Except Int (List SearchResult)) : Except KeychainError (List KeychainEntry) :=
  match r with
  | .ok items =>
    .ok (items.filterMap (fun item =>
      match item with
      | .dict _ (some service) (some passwordData) =>
        some { service := service, account := account,
               password := fromUtf8Lossy passwordData }
      | _ => none))
  | .error e =>
    if e = errSecItemNotFound then .ok []
    else .error (.PlatformError ("Failed to search keychain: OSStatus " ++ toString e))

/-- The stub backend type for Linux (linux.rs): a unit struct with no state. -/
structure LinuxKeychain where
deriving DecidableEq, Repr

/-- Embedding of LinuxKeychain::new (linux.rs lines 9-15): construction
always fails with an Unsupported error telling the caller to use the
fallback backend. -/
def LinuxKeychain.new (_options : Option KeychainOptions) :
    Except KeychainError LinuxKeychain :=
  .error (.Unsupported "Linux keychain support not yet implemented. Use fallback.")

/-- Embedding of LinuxKeychain::set_password (linux.rs lines 19-21). -/
def LinuxKeychain.set_password (_k : LinuxKeychain) (_service _account _password : String) :
    Except KeychainError Unit :=
  .error (.Unsupported "Not implemented")

/-- Embedding of LinuxKeychain::get_password (linux.rs lines 23-25). -/
def LinuxKeychain.get_password (_k : LinuxKeychain) (_service _account : String) :
    Except KeychainError (Option String) :=
  .error (.Unsupported "Not implemented")

/-- Embedding of LinuxKeychain::delete_password (linux.rs lines 27-29). -/
def LinuxKeychain.delete_password (_k : LinuxKeychain) (_service _account : String) :
    Except KeychainError Bool :=
  .error (.Unsupported "Not implemented")

/-- Embedding of LinuxKeychain::find_credentials (linux.rs lines 31-33). -/
def LinuxKeychain.find_credentials (_k : LinuxKeychain) (_service : String) :
    Except KeychainError (List KeychainEntry) :=
  .error (.Unsupported "Not implemented")

/-- Embedding of LinuxKeychain::find_by_account (linux.rs lines 35-37). -/
def LinuxKeychain.find_by_account (_k : LinuxKeychain) (_account : String) :
    Except KeychainError (List KeychainEntry) :=
  .error (.Unsupported "Not implemented")

/-- Index of the first occurrence of the pattern sep inside xs, scanning
left to right, as Rust pattern search does.  For an empty sep this is
some 0 on every input; the service-name helpers only use it with the
non-empty patterns "?env=" and "?". -/
def firstMatchIdx (sep : List Char) (xs : List Char) : Option Nat :=
  if sep <+: xs then some 0
  else
    match xs with
    | [] => none
    | _ :: t => (firstMatchIdx sep t).map (· + 1)

/-- The text before the first occurrence of sep (all of xs when sep does
not occur): the first piece of Rust str::split. -/
def takeToMatch (sep : List Char) (xs : List Char) : List Char :=
  match firstMatchIdx sep xs with
  | none => xs
  | some i => xs.take i

/-- The second piece of Rust str::split for a non-empty sep: the text
strictly between the first occurrence of sep and the following one (up to
the end when sep occurs only once); none when sep does not occur at all.
This is split(sep).nth(1). -/
def secondPiece (sep : List Char) (xs : List Char) : Option (List Char) :=
  match firstMatchIdx sep xs with
  | none => none
  | some i => some (takeToMatch sep (xs.drop (i + sep.length)))

/-- Whether needle occurs as a contiguous substring of hay. -/
def containsSub (needle : List Char) (hay : List Char) : Bool :=
  (firstMatchIdx needle hay).isSome

/-- Embedding of the GitInfo record from git_resolver.rs. -/
structure GitInfo where
  owner : String
  name : String
  full_name : String
deriving DecidableEq, Repr

/-- Embedding of GitPathResolver::generate_service_name (git_resolver.rs
lines 85-96).  The git resolution outcome is passed in as an Option
GitInfo (the source reads it from the repository remote), and dirName
stands for the resolved working-directory file name of the no-remote
branch. -/
def GitPathResolver.generate_service_name (gitInfo : Option GitInfo)
    (dirName : String) (environment : String) : String :=
  match gitInfo with
  | some gi => gi.full_name ++ "?env=" ++ environment
  | none => "local/" ++ dirName ++ "?env=" ++ environment

/-- Embedding of GitPathResolver::extract_env_from_service (git_resolver.rs
lines 98-103): split on "?env=", take the second piece, defaulting to
"development" when there is none. -/
def GitPathResolver.extract_env_from_service (serviceName : String) : String :=
  match secondPiece "?env=".data serviceName.data with
  | some e => String.mk e
  | none => "development"

/-- Embedding of GitPathResolver::extract_repo_from_service (git_resolver.rs
lines 105-107): the piece of the string before the first question mark
(split on the question-mark character, first piece). -/
def GitPathResolver.extract_repo_from_service (serviceName : String) : String :=
  String.mk (takeToMatch ['?'] serviceName.data)

/-- Model of keyring::Error as seen by src/keychain.rs: the NoEntry variant
is matched explicitly there; every other variant is opaque. -/
inductive KeyringError where
  | NoEntry
  | Other (msg : String)
deriving DecidableEq, Repr

/-- Model of the anyhow error produced by the CLI layer: a context string
wrapped around the underlying keyring error. -/
inductive CliError where
  | wrapped (context : String) (cause : KeyringError)
deriving DecidableEq, Repr

/-- Embedding of KeychainManager::get_var (src/keychain.rs lines 25-33) as a
function of the keyring get_password outcome: Ok maps to Ok(Some), and every
error — the NoEntry missing-entry report included, since the arm mapping it
to Ok(None) is commented out in the source — is wrapped and propagated. -/
def KeychainManager.get_var (r : Except KeyringError String) :
    Except CliError (Option String) :=
  match r with
  | .ok password => .ok (some password)
  | .error e => .error (.wrapped "Failed to read from keychain" e)

/-- Embedding of KeychainManager::delete_var (src/keychain.rs lines 35-42)
as a function of the keyring delete_credential outcome: Ok maps to
Ok(true), NoEntry maps to Ok(false), every other error is wrapped. -/
def KeychainManager.delete_var (r : Except KeyringError Unit) :
    Except CliError Bool :=
  match r with
  | .ok _ => .ok true
  | .error .NoEntry => .ok false
  | .error e => .error (.wrapped "Failed to delete from keychain" e)

/-- The repo portion of a generated service name: the git full name
host/owner/repo when a remote resolves, "local/" followed by the directory
name otherwise.  Used to state the round-trip property of the service-name
helpers. -/
def repoPart (gitInfo : Option GitInfo) (dirName : String) : String :=
  match gitInfo with
  | some gi => gi.full_name
  | none => "local/" ++ dirName

theorem lookup_eraseKey_self {α : Type} (l : Store α) (k : String × String) :
    lookupKey (eraseKey l k) k = none := by
  induction l with
  | nil => rfl
  | cons hd tl ih =>
    obtain ⟨k', v⟩ := hd
    by_cases h : k' = k
    · simpa [eraseKey, h] using ih
    · simpa [eraseKey, h, lookupKey] using ih

theorem lookup_eraseKey_ne {α : Type} (l : Store α) (k k₁ : String × String)
    (h : k₁ ≠ k) : lookupKey (eraseKey l k) k₁ = lookupKey l k₁ := by
  induction l with
  | nil => rfl
  | cons hd tl ih =>
    obtain ⟨k', v⟩ := hd
    simp only [eraseKey]
    by_cases hk : k' = k
    · subst hk
      rw [if_pos rfl, ih]
      have hne : ¬ k' = k₁ := fun hh => h hh.symm
      simp [lookupKey, hne]
    · rw [if_neg hk]
      by_cases hk1 : k' = k₁
      · simp [lookupKey, hk1]
      · simp [lookupKey, hk1, ih]

theorem lookup_insertKey_self {α : Type} (l : Store α) (k : String × String) (v : α) :
    lookupKey (insertKey l k v) k = some v := by
  simp [insertKey, lookupKey]

theorem lookup_insertKey_ne {α : Type} (l : Store α) (k k₁ : String × String) (v : α)
    (h : k₁ ≠ k) : lookupKey (insertKey l k v) k₁ = lookupKey l k₁ := by
  have : ¬ k = k₁ := fun hkk => h (hkk ▸ rfl)
  simp [insertKey, lookupKey, this, lookup_eraseKey_ne l k k₁ h]

theorem eraseKey_of_absent {α : Type} (l : Store α) (k : String × String)
    (h : lookupKey l k = none) : eraseKey l k = l := by
  induction l with
  | nil => rfl
  | cons hd tl ih =>
    obtain ⟨k', v⟩ := hd
    by_cases hk : k' = k
    · simp [lookupKey, hk] at h
    · simp [lookupKey, hk] at h
      simp [eraseKey, hk, ih h]

theorem stringMkData (s : String) : String.mk s.data = s := rfl

theorem firstMatchIdx_zero_of_leading {sep xs : List Char} (h : sep <+: xs) :
    firstMatchIdx sep xs = some 0 := by
  cases xs with
  | nil =>
    simp only [firstMatchIdx]
    rw [if_pos h]
  | cons c t =>
    simp only [firstMatchIdx]
    rw [if_pos h]

theorem containsSub_append_right (n h : List Char) : containsSub n (h ++ n) = true := by
  induction h with
  | nil =>
    rw [List.nil_append, containsSub, firstMatchIdx_zero_of_leading (List.prefix_refl n)]
    rfl
  | cons c t ih =>
    simp only [containsSub, firstMatchIdx, List.cons_append]
    split
    · rfl
    · simpa [containsSub, Option.isSome_map] using ih

theorem prefix_cons_head {sep t : List Char} {c ch : Char}
    (hp : sep <+: (c :: t)) (hh : sep.head? = some ch) : ch = c := by
  obtain ⟨u, hu⟩ := hp
  cases sep with
  | nil => simp at hh
  | cons s0 sTail =>
    have h0 : s0 = ch := by simpa using hh
    have h1 : s0 = c := by
      rw [List.cons_append] at hu
      exact (List.cons.injEq _ _ _ _ ▸ hu).1
    rw [← h0, h1]

theorem firstMatchIdx_append (sep R right : List Char) (c : Char)
    (hhead : sep.head? = some c) (hc : c ∉ R) (hpre : sep <+: right) :
    firstMatchIdx sep (R ++ right) = some R.length := by
  induction R with
  | nil =>
    rw [List.nil_append, firstMatchIdx_zero_of_leading hpre]
    rfl
  | cons r R' ih =>
    have hcr : ¬ c = r ∧ c ∉ R' := by simpa using hc
    have hnp : ¬ sep <+: (r :: (R' ++ right)) := by
      intro hp
      exact hcr.1 (prefix_cons_head hp hhead)
    rw [List.cons_append]
    simp only [firstMatchIdx]
    rw [if_neg hnp, ih hcr.2]
    simp

theorem splitEnvParts (R E : List Char) (h1 : '?' ∉ R)
    (h2 : firstMatchIdx "?env=".data E = none) :
    secondPiece "?env=".data (R ++ ("?env=".data ++ E)) = some E
    ∧ takeToMatch ['?'] (R ++ ("?env=".data ++ E)) = R := by
  have hf : firstMatchIdx "?env=".data (R ++ ("?env=".data ++ E)) = some R.length :=
    firstMatchIdx_append _ R _ '?' rfl h1 (List.prefix_append _ _)
  constructor
  · have hdrop : (R ++ ("?env=".data ++ E)).drop (R.length + ("?env=".data).length) = E := by
      rw [← List.append_assoc]
      have hlen : (R ++ "?env=".data).length = R.length + ("?env=".data).length :=
        List.length_append _ _
      rw [← hlen, List.drop_left]
    simp only [secondPiece, hf, hdrop]
    simp only [takeToMatch, h2]
  · have hq : firstMatchIdx ['?'] (R ++ ("?env=".data ++ E)) = some R.length :=
      firstMatchIdx_append ['?'] R ("?env=".data ++ E) '?' (by decide) h1
        ⟨"env=".data ++ E, rfl⟩
    rw [takeToMatch, hq]
    exact List.take_left R ("?env=".data ++ E)

/-- Claim C1: for the fallback backend and the macOS backend, whenever no
entry is stored under (service, account) — never set, or deleted since the
last set — get_password returns Ok(None) and never an error.  The fallback
conjuncts also record that its get_password is Ok on every input; the macOS
conjuncts are stated over the OS-store model, in which a search for an
absent key reports errSecItemNotFound. -/
theorem get_password_absent_is_ok_none
    (st : FallbackStorage) (os : OsState) (service account : String) :
    (∃ v, FallbackKeychain.get_password st service account = .ok v)
    ∧ (lookupKey st (service, account) = none →
        FallbackKeychain.get_password st service account = .ok none)
    ∧ FallbackKeychain.get_password
        (FallbackKeychain.delete_password st service account).2 service account = .ok none
    ∧ (lookupKey os (service, account) = none →
        MacOSKeychain.get_password os service account = .ok none)
    ∧ MacOSKeychain.get_password
        (MacOSKeychain.delete_password os service account).2 service account = .ok none := by
  refine ⟨⟨_, rfl⟩, ?_, ?_, ?_, ?_⟩
  · intro h
    simp [FallbackKeychain.get_password, h]
  · simp [FallbackKeychain.get_password, FallbackKeychain.delete_password,
      lookup_eraseKey_self]
  · intro h
    simp [MacOSKeychain.get_password, SecKeychain.copy_matching, h,
      MacOSKeychain.get_password_result]
  · have hnone :
        lookupKey (MacOSKeychain.delete_password os service account).2 (service, account)
          = none := by
      rcases hx : lookupKey os (service, account) with _ | item
      · simp [MacOSKeychain.delete_password, SecKeychain.delete_generic_password, hx]
      · simp [MacOSKeychain.delete_password, SecKeychain.delete_generic_password, hx,
          lookup_eraseKey_self]
    simp [MacOSKeychain.get_password, SecKeychain.copy_matching, hnone,
      MacOSKeychain.get_password_result]

/-- Witness for C1 at a concrete empty store. -/
theorem get_password_absent_is_ok_none_witness :
    FallbackKeychain.get_password ([] : FallbackStorage) "svc" "KEY" = .ok none
    ∧ MacOSKeychain.get_password ([] : OsState) "svc" "KEY" = .ok none :=
  ⟨(get_password_absent_is_ok_none [] [] "svc" "KEY").2.1 rfl,
   (get_password_absent_is_ok_none [] [] "svc" "KEY").2.2.2.1 rfl⟩

/-- Claim C2: for the fallback backend and the macOS backend (over the
OS-store model), delete_password on an absent key returns Ok(false) with
the store unchanged, never an error; it returns Ok(true) exactly when an
entry existed, and after the call the key is absent. -/
theorem delete_password_absent_ok_false
    (st : FallbackStorage) (os : OsState) (service account : String) :
    (lookupKey st (service, account) = none →
      FallbackKeychain.delete_password st service account = (.ok false, st))
    ∧ ((FallbackKeychain.delete_password st service account).1 = .ok true
        ↔ (lookupKey st (service, account)).isSome = true)
    ∧ lookupKey (FallbackKeychain.delete_password st service account).2 (service, account)
        = none
    ∧ (lookupKey os (service, account) = none →
        MacOSKeychain.delete_password os service account = (.ok false, os))
    ∧ ((MacOSKeychain.delete_password os service account).1 = .ok true
        ↔ (lookupKey os (service, account)).isSome = true)
    ∧ lookupKey (MacOSKeychain.delete_password os service account).2 (service, account)
        = none := by
  refine ⟨?_, ?_, ?_, ?_, ?_, ?_⟩
  · intro h
    simp [FallbackKeychain.delete_password, h, eraseKey_of_absent st _ h]
  · simp [FallbackKeychain.delete_password]
  · simp [FallbackKeychain.delete_password, lookup_eraseKey_self]
  · intro h
    simp [MacOSKeychain.delete_password, SecKeychain.delete_generic_password, h,
      MacOSKeychain.delete_password_result, errSecItemNotFound]
  · rcases hx : lookupKey os (service, account) with _ | item
    · simp [MacOSKeychain.delete_password, SecKeychain.delete_generic_password, hx,
        MacOSKeychain.delete_password_result, errSecItemNotFound]
    · simp [MacOSKeychain.delete_password, SecKeychain.delete_generic_password, hx,
        MacOSKeychain.delete_password_result]
  · rcases hx : lookupKey os (service, account) with _ | item
    · simp [MacOSKeychain.delete_password, SecKeychain.delete_generic_password, hx]
    · simp [MacOSKeychain.delete_password, SecKeychain.delete_generic_password, hx,
        lookup_eraseKey_self]

/-- Witness for C2 at a concrete empty store. -/
theorem delete_password_absent_ok_false_witness :
    FallbackKeychain.delete_password ([] : FallbackStorage) "svc" "KEY" = (.ok false, [])
    ∧ MacOSKeychain.delete_password ([] : OsState) "svc" "KEY" = (.ok false, []) :=
  ⟨(delete_password_absent_ok_false [] [] "svc" "KEY").1 rfl,
   (delete_password_absent_ok_false [] [] "svc" "KEY").2.2.2.1 rfl⟩

/-- Claim C3: on the fallback backend, after any finite sequence of
set_password calls to one (service, account) key ending in password p, a
subsequent get_password returns Ok(Some(p)) — string equality is exact, so
this covers empty, multi-line, quoted and emoji passwords — and every
set_password call itself returns Ok. -/
theorem fallback_last_write_wins
    (st : FallbackStorage) (service account : String) (ps : List String) (p : String) :
    (FallbackKeychain.set_password st service account p).1 = .ok ()
    ∧ FallbackKeychain.get_password
        (applySets st service account (ps ++ [p])) service account = .ok (some p) := by
  refine ⟨rfl, ?_⟩
  rw [applySets, List.foldl_append]
  simp [FallbackKeychain.set_password, FallbackKeychain.get_password, lookup_insertKey_self]

/-- Counterexample to claim C4 as stated: with one live entry whose account
is "app_foo", a find_by_account search for "app_" returns the empty list,
while the spec-side starts-with reading returns that entry — the fallback
search matches accounts by exact equality, not by prefix. -/
theorem fallback_find_by_account_not_a_prefix_search :
    FallbackKeychain.find_by_account [(("svc", "app_foo"), "pw")] "app_" = .ok []
    ∧ findByAccountStartsWithSpec [(("svc", "app_foo"), "pw")] "app_"
        = [{ service := "svc", account := "app_foo", password := "pw" }]
    ∧ ([] : List KeychainEntry)
        ≠ [{ service := "svc", account := "app_foo", password := "pw" }] := by
  refine ⟨rfl, by decide, by decide⟩

/-- Claim C4 (amended): on the fallback backend, a search by account
returns exactly the live entries whose account EQUALS the given string,
compared case-sensitively, and a search by service returns exactly the
live entries whose service equals the given service; the fallback has no
unfiltered search and no prefix matching. -/
theorem fallback_find_exact_equality
    (st : FallbackStorage) (service account : String) (l₁ l₂ : List KeychainEntry)
    (e : KeychainEntry)
    (h₁ : FallbackKeychain.find_by_account st account = .ok l₁)
    (h₂ : FallbackKeychain.find_credentials st service = .ok l₂) :
    (e ∈ l₁ ↔ ((e.service, e.account), e.password) ∈ st ∧ e.account = account)
    ∧ (e ∈ l₂ ↔ ((e.service, e.account), e.password) ∈ st ∧ e.service = service) := by
  simp only [FallbackKeychain.find_by_account, Except.ok.injEq] at h₁
  simp only [FallbackKeychain.find_credentials, Except.ok.injEq] at h₂
  subst h₁
  subst h₂
  constructor
  · simp only [List.mem_map, List.mem_filter]
    constructor
    · rintro ⟨⟨⟨ks, ka⟩, kp⟩, ⟨hmem, hpred⟩, rfl⟩
      simp only [decide_eq_true_eq] at hpred
      exact ⟨hmem, hpred⟩
    · rintro ⟨hmem, hacc⟩
      exact ⟨((e.service, e.account), e.password), ⟨hmem, by simpa using hacc⟩, rfl⟩
  · simp only [List.mem_map, List.mem_filter]
    constructor
    · rintro ⟨⟨⟨ks, ka⟩, kp⟩, ⟨hmem, hpred⟩, rfl⟩
      simp only [decide_eq_true_eq] at hpred
      exact ⟨hmem, hpred⟩
    · rintro ⟨hmem, hsvc⟩
      exact ⟨((e.service, e.account), e.password), ⟨hmem, by simpa using hsvc⟩, rfl⟩

/-- Witness for the amended C4 at a concrete one-entry store. -/
theorem fallback_find_exact_equality_witness :
    ((⟨"svc", "app_foo", "pw"⟩ : KeychainEntry)
        ∈ [(⟨"svc", "app_foo", "pw"⟩ : KeychainEntry)]
      ↔ ((("svc", "app_foo"), "pw") ∈ ([(("svc", "app_foo"), "pw")] : FallbackStorage)
          ∧ "app_foo" = "app_foo"))
    ∧ ((⟨"svc", "app_foo", "pw"⟩ : KeychainEntry)
        ∈ [(⟨"svc", "app_foo", "pw"⟩ : KeychainEntry)]
      ↔ ((("svc", "app_foo"), "pw") ∈ ([(("svc", "app_foo"), "pw")] : FallbackStorage)
          ∧ "svc" = "svc")) :=
  fallback_find_exact_equality [(("svc", "app_foo"), "pw")] "svc" "app_foo"
    [⟨"svc", "app_foo", "pw"⟩] [⟨"svc", "app_foo", "pw"⟩] ⟨"svc", "app_foo", "pw"⟩
    rfl rfl

/-- Claim C5: on the macOS backend (over the OS-store model), set_password
is the two-step delete-then-add sequence: it succeeds whether or not the
key was present (the outcome of the deletion is ignored), afterwards the
key holds exactly the given password with display label
service ++ " (" ++ account ++ ")", every other key is untouched, and after
the first step of the sequence — before the add — the key is absent, the
observable transient window of the non-atomic upsert. -/
theorem macos_set_password_delete_then_add
    (os : OsState) (service account password : String) :
    (MacOSKeychain.set_password os service account password).1 = .ok ()
    ∧ lookupKey (MacOSKeychain.set_password os service account password).2
        (service, account)
      = some { password := password, label := service ++ " (" ++ account ++ ")" }
    ∧ (∀ k, k ≠ (service, account) →
        lookupKey (MacOSKeychain.set_password os service account password).2 k
          = lookupKey os k)
    ∧ lookupKey (MacOSKeychain.delete_password os service account).2 (service, account)
        = none := by
  have hmid :
      lookupKey (MacOSKeychain.delete_password os service account).2 (service, account)
        = none := by
    rcases hx : lookupKey os (service, account) with _ | item
    · simp [MacOSKeychain.delete_password, SecKeychain.delete_generic_password, hx]
    · simp [MacOSKeychain.delete_password, SecKeychain.delete_generic_password, hx,
        lookup_eraseKey_self]
  have hmid2 :
      ∀ k, k ≠ (service, account) →
        lookupKey (MacOSKeychain.delete_password os service account).2 k = lookupKey os k := by
    intro k hk
    rcases hx : lookupKey os (service, account) with _ | item
    · simp [MacOSKeychain.delete_password, SecKeychain.delete_generic_password, hx]
    · simp [MacOSKeychain.delete_password, SecKeychain.delete_generic_password, hx,
        lookup_eraseKey_ne _ _ _ hk]
  refine ⟨?_, ?_, ?_, hmid⟩
  · simp [MacOSKeychain.set_password, SecKeychain.item_add, hmid]
  · simp [MacOSKeychain.set_password, SecKeychain.item_add, hmid, lookup_insertKey_self]
  · intro k hk
    simp [MacOSKeychain.set_password, SecKeychain.item_add, hmid,
      lookup_insertKey_ne _ _ _ _ hk, hmid2 k hk]

/-- Witness for C5: setting over a store holding an unrelated key. -/
theorem macos_set_password_delete_then_add_witness :
    (MacOSKeychain.set_password
        ([(("other", "k"), { password := "v", label := "l" })] : OsState)
        "svc" "KEY" "pw").1 = .ok ()
    ∧ lookupKey (MacOSKeychain.set_password
          ([(("other", "k"), { password := "v", label := "l" })] : OsState)
          "svc" "KEY" "pw").2 ("svc", "KEY")
        = some { password := "pw", label := "svc" ++ " (" ++ "KEY" ++ ")" }
    ∧ lookupKey (MacOSKeychain.set_password
          ([(("other", "k"), { password := "v", label := "l" })] : OsState)
          "svc" "KEY" "pw").2 ("other", "k")
        = lookupKey ([(("other", "k"), { password := "v", label := "l" })] : OsState)
            ("other", "k") :=
  have h := macos_set_password_delete_then_add
    [(("other", "k"), { password := "v", label := "l" })] "svc" "KEY" "pw"
  ⟨h.1, h.2.1, h.2.2.1 ("other", "k") (by decide)⟩

/-- Claim C6: the macOS get_password status mapping — errSecItemNotFound
becomes Ok(None) whatever the data; any other non-zero status becomes a
PlatformError whose message embeds the raw OSStatus; status 0 with data
yields the data decoded as UTF-8 with lossy replacement. -/
theorem macos_get_password_status_mapping
    (status : Int) (d : List Nat) (data : Option (List Nat)) :
    MacOSKeychain.get_password_result errSecItemNotFound data = .ok none
    ∧ (status ≠ errSecItemNotFound → status ≠ 0 →
        MacOSKeychain.get_password_result status data
          = .error (.PlatformError
              ("Failed to get keychain item: OSStatus " ++ toString status))
        ∧ containsSub (toString status).data
            ("Failed to get keychain item: OSStatus " ++ toString status).data = true)
    ∧ MacOSKeychain.get_password_result 0 (some d) = .ok (some (fromUtf8Lossy d)) := by
  refine ⟨?_, ?_, ?_⟩
  · simp [MacOSKeychain.get_password_result]
  · intro h1 h2
    constructor
    · cases data with
      | none => simp [MacOSKeychain.get_password_result, h1]
      | some dd => simp [MacOSKeychain.get_password_result, h1, h2]
    · rw [String.data_append]
      exact containsSub_append_right _ _
  · have h0 : (0 : Int) ≠ errSecItemNotFound := by decide
    simp [MacOSKeychain.get_password_result, h0]

/-- Witness for C6 at the concrete failing status -1. -/
theorem macos_get_password_status_mapping_witness :
    MacOSKeychain.get_password_result (-1) none
      = .error (.PlatformError
          ("Failed to get keychain item: OSStatus " ++ toString (-1 : Int))) :=
  ((macos_get_password_status_mapping (-1) [] none).2.1 (by decide) (by decide)).1

/-- Claim C7: the macOS searches are best-effort — a matched record missing
its account field (for find_credentials), its service field (for
find_by_account), or its password-data field is silently skipped, leaving
the result of the remaining records; a well-formed record is kept; the
search always succeeds on any record list; and an errSecItemNotFound
search failure yields Ok with an empty list, never an error. -/
theorem macos_find_skips_malformed
    (service account : String) (items : List SearchResult)
    (acct svce : Option String) (d : List Nat) (l : List KeychainEntry) :
    MacOSKeychain.find_credentials_result service
        (.ok (.dict acct svce none :: items))
      = MacOSKeychain.find_credentials_result service (.ok items)
    ∧ MacOSKeychain.find_credentials_result service
        (.ok (.dict none svce (some d) :: items))
      = MacOSKeychain.find_credentials_result service (.ok items)
    ∧ MacOSKeychain.find_credentials_result service (.ok (.other :: items))
      = MacOSKeychain.find_credentials_result service (.ok items)
    ∧ (∃ l0, MacOSKeychain.find_credentials_result service (.ok items) = .ok l0)
    ∧ MacOSKeychain.find_credentials_result service (.error errSecItemNotFound) = .ok []
    ∧ (MacOSKeychain.find_credentials_result service (.ok items) = .ok l →
        ∀ a0, MacOSKeychain.find_credentials_result service
            (.ok (.dict (some a0) svce (some d) :: items))
          = .ok ({ service := service, account := a0,
                   password := fromUtf8Lossy d } :: l))
    ∧ MacOSKeychain.find_by_account_result account
        (.ok (.dict acct svce none :: items))
      = MacOSKeychain.find_by_account_result account (.ok items)
    ∧ MacOSKeychain.find_by_account_result account
        (.ok (.dict acct none (some d) :: items))
      = MacOSKeychain.find_by_account_result account (.ok items)
    ∧ MacOSKeychain.find_by_account_result account (.error errSecItemNotFound)
      = .ok [] := by
  refine ⟨?_, ?_, ?_, ⟨_, rfl⟩, ?_, ?_, ?_, ?_, ?_⟩
  · cases acct <;> simp [MacOSKeychain.find_credentials_result, List.filterMap_cons]
  · simp [MacOSKeychain.find_credentials_result, List.filterMap_cons]
  · simp [MacOSKeychain.find_credentials_result, List.filterMap_cons]
  · simp [MacOSKeychain.find_credentials_result]
  · intro h a0
    simp only [MacOSKeychain.find_credentials_result, Except.ok.injEq] at h
    subst h
    simp [MacOSKeychain.find_credentials_result, List.filterMap_cons]
  · cases svce <;> simp [MacOSKeychain.find_by_account_result, List.filterMap_cons]
  · simp [MacOSKeychain.find_by_account_result, List.filterMap_cons]
  · simp [MacOSKeychain.find_by_account_result]

/-- Witness for C7: a malformed record is skipped and a well-formed one is
kept, at concrete inputs. -/
theorem macos_find_skips_malformed_witness :
    MacOSKeychain.find_credentials_result "s"
        (.ok [SearchResult.dict none none (some [65])])
      = MacOSKeychain.find_credentials_result "s" (.ok [])
    ∧ MacOSKeychain.find_credentials_result "s"
        (.ok [SearchResult.dict (some "acc") none (some [65]),
              SearchResult.dict none none (some [65])])
      = .ok [{ service := "s", account := "acc", password := fromUtf8Lossy [65] }] :=
  have h := macos_find_skips_malformed "s" "a" [] none none [65] []
  have h2 := macos_find_skips_malformed "s" "a"
    [SearchResult.dict none none (some [65])] none none [65] []
  ⟨h.2.1, h2.2.2.2.2.2.1 rfl "acc"⟩

/-- Claim C8: the Linux stub backend — construction always fails with an
Unsupported error whose message names the fallback backend, and every
trait operation returns an Unsupported error for all inputs, so no
partially functional instance is ever produced. -/
theorem linux_stub_always_unsupported
    (options : Option KeychainOptions) (k : LinuxKeychain)
    (service account password : String) :
    LinuxKeychain.new options
      = .error (.Unsupported "Linux keychain support not yet implemented. Use fallback.")
    ∧ containsSub "fallback".data
        "Linux keychain support not yet implemented. Use fallback.".data = true
    ∧ LinuxKeychain.set_password k service account password
      = .error (.Unsupported "Not implemented")
    ∧ LinuxKeychain.get_password k service account
      = .error (.Unsupported "Not implemented")
    ∧ LinuxKeychain.delete_password k service account
      = .error (.Unsupported "Not implemented")
    ∧ LinuxKeychain.find_credentials k service
      = .error (.Unsupported "Not implemented")
    ∧ LinuxKeychain.find_by_account k account
      = .error (.Unsupported "Not implemented") :=
  ⟨rfl, by decide, rfl, rfl, rfl, rfl, rfl⟩

/-- Claim C9 (amended): for every environment string E not containing the
substring "?env=", and provided the repo portion of the service name (the
git full name host/owner/repo, or "local/" ++ directory-name when no
remote resolves) contains no question-mark character, the generated
service name is exactly repo ++ "?env=" ++ E, extract_env_from_service
recovers E from it, and extract_repo_from_service recovers the repo
portion.  The restriction on the repo portion is forced: a directory name
containing "?env=" breaks the round trip (see the counterexample). -/
theorem service_name_round_trip
    (gitInfo : Option GitInfo) (dirName environment : String)
    (h1 : '?' ∉ (repoPart gitInfo dirName).data)
    (h2 : firstMatchIdx "?env=".data environment.data = none) :
    GitPathResolver.generate_service_name gitInfo dirName environment
      = repoPart gitInfo dirName ++ "?env=" ++ environment
    ∧ GitPathResolver.extract_env_from_service
        (GitPathResolver.generate_service_name gitInfo dirName environment)
      = environment
    ∧ GitPathResolver.extract_repo_from_service
        (GitPathResolver.generate_service_name gitInfo dirName environment)
      = repoPart gitInfo dirName := by
  have hgen : GitPathResolver.generate_service_name gitInfo dirName environment
      = repoPart gitInfo dirName ++ "?env=" ++ environment := by
    cases gitInfo <;> rfl
  have hdata : (repoPart gitInfo dirName ++ "?env=" ++ environment).data
      = (repoPart gitInfo dirName).data ++ ("?env=".data ++ environment.data) := by
    rw [String.data_append, String.data_append, List.append_assoc]
  have hsplit := splitEnvParts (repoPart gitInfo dirName).data environment.data h1 h2
  refine ⟨hgen, ?_, ?_⟩
  · rw [hgen]
    simp only [GitPathResolver.extract_env_from_service, hdata, hsplit.1]
  · rw [hgen]
    simp only [GitPathResolver.extract_repo_from_service, hdata, hsplit.2]

/-- Witness for C9 at concrete inputs with no git remote. -/
theorem service_name_round_trip_witness :
    GitPathResolver.extract_env_from_service
        (GitPathResolver.generate_service_name none "myproj" "production")
      = "production"
    ∧ GitPathResolver.extract_repo_from_service
        (GitPathResolver.generate_service_name none "myproj" "production")
      = repoPart none "myproj" :=
  have h := service_name_round_trip none "myproj" "production" (by decide) (by decide)
  ⟨h.2.1, h.2.2⟩

/-- Counterexample to claim C9 as stated: the environment "production"
contains no "?env=", yet with no git remote and a directory literally
named "x?env=y" the generated service name is
"local/x?env=y?env=production" and extract_env_from_service returns "y",
not "production". -/
theorem service_name_round_trip_cex :
    GitPathResolver.extract_env_from_service
        (GitPathResolver.generate_service_name none "x?env=y" "production") = "y"
    ∧ "y" ≠ "production" := by
  constructor
  · decide
  · decide

/-- Claim C10: the CLI-side KeychainManager::get_var never returns
Ok(None) — every keyring error, the missing-entry NoEntry report included,
is wrapped and propagated as Err — while delete_var on the same type maps
NoEntry to Ok(false). -/
theorem keychain_manager_get_var_never_ok_none (r : Except KeyringError String) :
    KeychainManager.get_var r ≠ .ok none
    ∧ KeychainManager.get_var (.error .NoEntry)
        = .error (.wrapped "Failed to read from keychain" .NoEntry)
    ∧ KeychainManager.delete_var (.error .NoEntry) = .ok false := by
  refine ⟨?_, rfl, rfl⟩
  cases r <;> simp [KeychainManager.get_var]

/-- Witness for C10 at the concrete missing-entry outcome. -/
theorem keychain_manager_get_var_never_ok_none_witness :
    KeychainManager.get_var (.error .NoEntry) ≠ .ok none
    ∧ KeychainManager.delete_var (.error .NoEntry) = .ok false :=
  ⟨(keychain_manager_get_var_never_ok_none (.error .NoEntry)).1,
   (keychain_manager_get_var_never_ok_none (.error .NoEntry)).2.2⟩
